import Mathlib

/-!
Verification development for the dpctl SYCL queue manager.

The repository ships the queue-manager test surface
(`backends/tests/test_sycl_queue_manager.cpp`) and the context interface
header (`backends/include/dppl_sycl_context_interface.h`); the manager
implementation itself is not part of the visible sources.  Following the
specification document, the manager is embedded here as a state machine:
a read-only device catalog, a lazily populated queue registry shared by
all threads, and a strictly thread-local stack of activated queues.
Traces of operations tagged with the issuing thread give the concurrent
semantics: the per-thread stack is only touched by that thread's own
events.
-/

namespace Dpctl

/-- Device classes recognised by the manager (DPPL_CPU, DPPL_GPU, ...). -/
inductive DeviceClass where
  | cpu
  | gpu
  | accelerator
  | host
deriving DecidableEq

/-- Modelled from the spec: the Device Catalog (missing from the visible
sources; only its callers in `test_sycl_queue_manager.cpp` are present).
It is populated once and read-only afterwards: a platform count and a
device count per device class. -/
structure Catalog where
  numPlatforms : Nat
  numDevices : DeviceClass → Nat

/-- A queue handle: bound to exactly one device, identified by its device
class and ordinal index.  Value equality of handles is equality of the
bound device, matching the logically-equivalent-queues reading of the
spec. -/
structure Queue where
  klass : DeviceClass
  idx : Nat
deriving DecidableEq

/-- A device handle, as projected from a queue by DPPLGetDeviceFromQueue. -/
structure Device where
  klass : DeviceClass
  idx : Nat
deriving DecidableEq

/-- The error taxonomy of the spec that is reachable through the modelled
operations: OutOfRange (bad device index) and EmptyStack (pop on an empty
stack). -/
inductive QMError where
  | outOfRange
  | emptyStack
deriving DecidableEq

/-- Threads are identified by a numeric id. -/
abbrev ThreadId := Nat

/-- The queue registry cache: an association list from (device class,
index) keys to the queue constructed for that key. -/
abbrev Registry := List ((DeviceClass × Nat) × Queue)

/-- Association-list lookup in the queue registry. -/
def lookupRegistry (reg : Registry) (key : DeviceClass × Nat) : Option Queue :=
  match reg with
  | [] => none
  | (k, q) :: rest => if k = key then some q else lookupRegistry rest key

/-- Modelled from the spec: the whole state of the queue manager (its
implementation is missing from the visible sources).  The catalog is
fixed, the registry is shared, `stackOf` gives each thread its own
activated-queue stack,
and `defaultQ` records whether the manager-wide default queue has been
lazily materialized by `current`. -/
structure QMState where
  catalog : Catalog
  registry : Registry
  stackOf : ThreadId → List Queue
  defaultQ : Option Queue

/-- Modelled from the spec: DPPLGetNumPlatforms (implementation missing
from the visible sources): returns the platform count of the read-only
catalog, as a (non-negative) integer. -/
def countPlatforms (s : QMState) : Int :=
  (s.catalog.numPlatforms : Int)

/-- Modelled from the spec: countDevicesOfClass (DPPLGetNumCPUQueues /
DPPLGetNumGPUQueues; implementation missing from the visible sources). -/
def countDevicesOfClass (s : QMState) (c : DeviceClass) : Nat :=
  s.catalog.numDevices c

/-- Modelled from the spec: DPPLGetQueue (implementation missing from the
visible sources).  An index at or beyond the device count of the class
fails with OutOfRange; otherwise the cached queue for the key is returned,
or a fresh queue is constructed and cached on first request. -/
def getQueue (s : QMState) (c : DeviceClass) (i : Nat) :
    Except QMError (Queue × QMState) :=
  if i < s.catalog.numDevices c then
    match lookupRegistry s.registry (c, i) with
    | some q => .ok (q, s)
    | none =>
      let q : Queue := ⟨c, i⟩
      .ok (q, { s with registry := ((c, i), q) :: s.registry })
  else
    .error .outOfRange

/-- Modelled from the spec: DPPLPushSyclQueue (implementation missing from
the visible sources).  Resolves a queue through the registry, then appends
it to the calling thread's own stack; registry failures propagate. -/
def push (s : QMState) (t : ThreadId) (c : DeviceClass) (i : Nat) :
    Except QMError (Queue × QMState) :=
  match getQueue s c i with
  | .error e => .error e
  | .ok (q, s1) =>
    .ok (q, { s1 with stackOf := fun u => if u = t then q :: s1.stackOf u else s1.stackOf u })

/-- Modelled from the spec: DPPLPopSyclQueue (implementation missing from
the visible sources).  Removes the top entry of the calling thread's
stack; on an empty stack it fails with EmptyStack, never a silent no-op. -/
def pop (s : QMState) (t : ThreadId) : Except QMError QMState :=
  match s.stackOf t with
  | [] => .error .emptyStack
  | _ :: rest =>
    .ok { s with stackOf := fun u => if u = t then rest else s.stackOf u }

/-- The manager-wide default queue: a designated CPU queue, per the
spec's default-queue policy. -/
def defaultQueue : Queue := ⟨DeviceClass.cpu, 0⟩

/-- Modelled from the spec: DPPLGetCurrentQueue (implementation missing
from the visible sources).  Returns the top of the calling thread's stack
without modifying it; on an empty stack it does not fail but lazily
materializes and returns the manager-wide default queue. -/
def current (s : QMState) (t : ThreadId) : Queue × QMState :=
  match s.stackOf t with
  | q :: _ => (q, s)
  | [] =>
    match s.defaultQ with
    | some q => (q, s)
    | none => (defaultQueue, { s with defaultQ := some defaultQueue })

/-- Modelled from the spec: DPPLGetNumActivatedQueues (implementation
missing from the visible sources): the calling thread's own stack depth. -/
def activatedCount (s : QMState) (t : ThreadId) : Nat :=
  (s.stackOf t).length

/-- Modelled from the spec: DPPLGetDeviceFromQueue (implementation missing
from the visible sources): the non-owning projection of a queue to its
device. -/
def getDeviceFromQueue (q : Queue) : Device :=
  ⟨q.klass, q.idx⟩

/-- Modelled from the spec: DPPLDumpPlatformInfo (implementation missing
from the visible sources): pure formatting that reports rather than
errors when the catalog is empty.  The Except result type records that
the operation could in principle signal a failure; it never does. -/
def dumpPlatformInfo (cat : Catalog) : Except QMError String :=
  if cat.numPlatforms = 0 then
    .ok "no devices"
  else
    .ok ("number of platforms: " ++ toString cat.numPlatforms)

/-- Modelled from the spec: DPPLDumpDeviceInfo (implementation missing
from the visible sources): pure formatting of one device; never fails. -/
def dumpDeviceInfo (d : Device) : Except QMError String :=
  .ok ("device with ordinal index " ++ toString d.idx)

/-- One manager operation, as issued by some thread. -/
inductive QMOp where
  | pushOp (c : DeviceClass) (i : Nat)
  | popOp
  | currentOp
  | getQueueOp (c : DeviceClass) (i : Nat)
deriving DecidableEq

/-- One step of the manager: the effect of a thread issuing one
operation on the shared state.  A failing operation leaves the state
unchanged. -/
def step (s : QMState) (t : ThreadId) (op : QMOp) : QMState :=
  match op with
  | .pushOp c i =>
    match push s t c i with
    | .ok (_, s1) => s1
    | .error _ => s
  | .popOp =>
    match pop s t with
    | .ok s1 => s1
    | .error _ => s
  | .currentOp => (current s t).2
  | .getQueueOp c i =>
    match getQueue s c i with
    | .ok (_, s1) => s1
    | .error _ => s

/-- Run a trace of (thread, operation) events from a state. -/
def run (s : QMState) (events : List (ThreadId × QMOp)) : QMState :=
  match events with
  | [] => s
  | (t, op) :: rest => run (step s t op) rest

/-- The subtrace of a given thread: the operations it issued, in order. -/
def projT (t : ThreadId) (events : List (ThreadId × QMOp)) : List QMOp :=
  match events with
  | [] => []
  | (u, op) :: rest => if u = t then op :: projT t rest else projT t rest

/-- The evolution of one thread's stack depth under one of its own
operations, as a pure function of the (immutable) catalog: a valid push
deepens the stack by one, a pop shallows it by one (saturating at zero,
where the real pop fails and leaves the stack unchanged), everything
else leaves the depth alone. -/
def stackLenStep (cat : Catalog) (n : Nat) (op : QMOp) : Nat :=
  match op with
  | .pushOp c i => if i < cat.numDevices c then n + 1 else n
  | .popOp => n - 1
  | .currentOp => n
  | .getQueueOp _ _ => n

/-- Iterated `stackLenStep` over a list of operations. -/
def stackLenRun (cat : Catalog) (n : Nat) (ops : List QMOp) : Nat :=
  match ops with
  | [] => n
  | op :: rest => stackLenRun cat (stackLenStep cat n op) rest

/-! ### Basic inversion lemmas about the individual operations -/

theorem getQueue_inv {s : QMState} {c : DeviceClass} {i : Nat} {q : Queue}
    {s' : QMState} (h : getQueue s c i = .ok (q, s')) :
    s'.catalog = s.catalog ∧ s'.stackOf = s.stackOf ∧ s'.defaultQ = s.defaultQ := by
  unfold getQueue at h
  split at h
  · split at h
    · simp only [Except.ok.injEq, Prod.mk.injEq] at h
      obtain ⟨-, rfl⟩ := h
      exact ⟨rfl, rfl, rfl⟩
    · simp only [Except.ok.injEq, Prod.mk.injEq] at h
      obtain ⟨-, rfl⟩ := h
      exact ⟨rfl, rfl, rfl⟩
  · exact absurd h (by simp)

theorem getQueue_valid_ok {s : QMState} {c : DeviceClass} {i : Nat}
    (h : i < s.catalog.numDevices c) :
    ∃ q s', getQueue s c i = .ok (q, s') := by
  unfold getQueue
  rw [if_pos h]
  cases lookupRegistry s.registry (c, i) <;> exact ⟨_, _, rfl⟩

theorem getQueue_invalid {s : QMState} {c : DeviceClass} {i : Nat}
    (h : ¬ i < s.catalog.numDevices c) :
    getQueue s c i = .error .outOfRange := by
  unfold getQueue
  rw [if_neg h]

theorem push_ok_inv {s : QMState} {t : ThreadId} {c : DeviceClass} {i : Nat}
    {q : Queue} {s' : QMState} (h : push s t c i = .ok (q, s')) :
    s'.catalog = s.catalog ∧ s'.stackOf t = q :: s.stackOf t ∧
      (∀ u, u ≠ t → s'.stackOf u = s.stackOf u) ∧ s'.defaultQ = s.defaultQ := by
  unfold push at h
  split at h
  · exact absurd h (by simp)
  · rename_i q1 s1 hget
    obtain ⟨hc, hst, hd⟩ := getQueue_inv hget
    simp only [Except.ok.injEq, Prod.mk.injEq] at h
    obtain ⟨rfl, rfl⟩ := h
    refine ⟨hc, ?_, ?_, hd⟩
    · simp [hst]
    · intro u hu
      simp [hu, hst]

theorem push_valid_ok {s : QMState} {t : ThreadId} {c : DeviceClass} {i : Nat}
    (h : i < s.catalog.numDevices c) :
    ∃ q s', push s t c i = .ok (q, s') := by
  obtain ⟨q, s1, hget⟩ := getQueue_valid_ok h
  unfold push
  rw [hget]
  exact ⟨_, _, rfl⟩

theorem push_invalid {s : QMState} {t : ThreadId} {c : DeviceClass} {i : Nat}
    (h : ¬ i < s.catalog.numDevices c) :
    push s t c i = .error .outOfRange := by
  unfold push
  rw [getQueue_invalid h]

theorem pop_empty {s : QMState} {t : ThreadId} (h : s.stackOf t = []) :
    pop s t = .error .emptyStack := by
  unfold pop
  rw [h]

theorem pop_cons {s : QMState} {t : ThreadId} {q : Queue} {rest : List Queue}
    (h : s.stackOf t = q :: rest) :
    pop s t = .ok { s with stackOf := fun u => if u = t then rest else s.stackOf u } := by
  unfold pop
  rw [h]

theorem pop_ok_inv {s : QMState} {t : ThreadId} {s' : QMState}
    (h : pop s t = .ok s') :
    s'.catalog = s.catalog ∧ s'.stackOf t = (s.stackOf t).tail ∧
      s.stackOf t ≠ [] ∧ (∀ u, u ≠ t → s'.stackOf u = s.stackOf u) ∧
      s'.defaultQ = s.defaultQ := by
  unfold pop at h
  split at h
  · exact absurd h (by simp)
  · rename_i q rest hst
    simp only [Except.ok.injEq] at h
    subst h
    refine ⟨rfl, by simp [hst], by simp [hst], ?_, rfl⟩
    intro u hu
    simp [hu]

theorem current_state_inv (s : QMState) (t : ThreadId) :
    (current s t).2.catalog = s.catalog ∧ (current s t).2.stackOf = s.stackOf ∧
      (current s t).2.registry = s.registry := by
  unfold current
  rcases s.stackOf t with - | ⟨q, rest⟩
  · rcases hd : s.defaultQ with - | q <;> simp
  · simp

/-! ### Frame and projection lemmas about `step` and `run` -/

theorem step_catalog (s : QMState) (t : ThreadId) (op : QMOp) :
    (step s t op).catalog = s.catalog := by
  rcases op with ⟨c, i⟩ | - | - | ⟨c, i⟩
  · simp only [step]
    rcases hp : push s t c i with e | ⟨q, s1⟩
    · rfl
    · exact (push_ok_inv hp).1
  · simp only [step]
    rcases hp : pop s t with e | s1
    · rfl
    · exact (pop_ok_inv hp).1
  · exact (current_state_inv s t).1
  · simp only [step]
    rcases hg : getQueue s c i with e | ⟨q, s1⟩
    · rfl
    · exact (getQueue_inv hg).1

theorem step_stackOf_ne {u t : ThreadId} (hu : u ≠ t) (s : QMState) (op : QMOp) :
    (step s t op).stackOf u = s.stackOf u := by
  rcases op with ⟨c, i⟩ | - | - | ⟨c, i⟩
  · simp only [step]
    rcases hp : push s t c i with e | ⟨q, s1⟩
    · rfl
    · exact (push_ok_inv hp).2.2.1 u hu
  · simp only [step]
    rcases hp : pop s t with e | s1
    · rfl
    · exact (pop_ok_inv hp).2.2.2.1 u hu
  · show (current s t).2.stackOf u = s.stackOf u
    rw [(current_state_inv s t).2.1]
  · simp only [step]
    rcases hg : getQueue s c i with e | ⟨q, s1⟩
    · rfl
    · exact congrFun (getQueue_inv hg).2.1 u

theorem step_stackOf_len (s : QMState) (t : ThreadId) (op : QMOp) :
    ((step s t op).stackOf t).length =
      stackLenStep s.catalog ((s.stackOf t).length) op := by
  rcases op with ⟨c, i⟩ | - | - | ⟨c, i⟩
  · simp only [step, stackLenStep]
    by_cases hv : i < s.catalog.numDevices c
    · obtain ⟨q, s', hp⟩ := push_valid_ok (t := t) hv
      rw [hp, if_pos hv]
      simp [(push_ok_inv hp).2.1]
    · rw [push_invalid hv, if_neg hv]
  · simp only [step, stackLenStep]
    rcases hst : s.stackOf t with - | ⟨q, rest⟩
    · rw [pop_empty hst, hst]
      rfl
    · rw [pop_cons hst]
      simp [hst]
  · simp only [step, stackLenStep]
    rw [(current_state_inv s t).2.1]
  · simp only [step, stackLenStep]
    rcases hg : getQueue s c i with e | ⟨q, s1⟩
    · rfl
    · rw [congrFun (getQueue_inv hg).2.1 t]

theorem run_catalog (events : List (ThreadId × QMOp)) (s : QMState) :
    (run s events).catalog = s.catalog := by
  induction events generalizing s with
  | nil => rfl
  | cons e rest ih =>
    rcases e with ⟨t, op⟩
    rw [run, ih, step_catalog]

theorem stackOf_run_length (events : List (ThreadId × QMOp)) (s : QMState)
    (t : ThreadId) :
    ((run s events).stackOf t).length =
      stackLenRun s.catalog ((s.stackOf t).length) (projT t events) := by
  induction events generalizing s with
  | nil => rfl
  | cons e rest ih =>
    rcases e with ⟨u, op⟩
    rw [run, projT]
    by_cases hu : u = t
    · subst hu
      rw [if_pos rfl, stackLenRun, ih, step_stackOf_len, step_catalog]
    · rw [if_neg hu, ih, step_stackOf_ne (Ne.symm hu) s op, step_catalog]

/-! ### Arithmetic of `stackLenRun` on push and pop blocks -/

theorem stackLenRun_append (cat : Catalog) (n : Nat) (ps qs : List QMOp) :
    stackLenRun cat n (ps ++ qs) = stackLenRun cat (stackLenRun cat n ps) qs := by
  induction ps generalizing n with
  | nil => rfl
  | cons op rest ih => rw [List.cons_append, stackLenRun, stackLenRun, ih]

theorem stackLenRun_pushes (cat : Catalog) (n : Nat) (ps : List QMOp)
    (hps : ∀ op ∈ ps, ∃ c i, op = QMOp.pushOp c i ∧ i < cat.numDevices c) :
    stackLenRun cat n ps = n + ps.length := by
  induction ps generalizing n with
  | nil => rfl
  | cons op rest ih =>
    obtain ⟨c, i, rfl, hv⟩ := hps op (List.mem_cons_self op rest)
    rw [stackLenRun, stackLenStep, if_pos hv,
      ih (n + 1) (fun o ho => hps o (List.mem_cons_of_mem _ ho))]
    simp only [List.length_cons]
    omega

theorem stackLenRun_pops (cat : Catalog) (n : Nat) (qs : List QMOp)
    (hqs : ∀ op ∈ qs, op = QMOp.popOp) :
    stackLenRun cat n qs = n - qs.length := by
  induction qs generalizing n with
  | nil => rfl
  | cons op rest ih =>
    rw [hqs op (List.mem_cons_self op rest), stackLenRun, stackLenStep,
      ih (n - 1) (fun o ho => hqs o (List.mem_cons_of_mem _ ho))]
    simp only [List.length_cons]
    omega

/-! ### Concrete sample data used by the witnesses -/

/-- A sample catalog: one platform, one device of every class. -/
def sampleCatalog : Catalog := ⟨1, fun _ => 1⟩

/-- A sample initial manager state: empty registry, every thread's stack
empty, default queue not yet materialized. -/
def sampleState : QMState := ⟨sampleCatalog, [], fun _ => [], none⟩

/-- A sample interleaving of events of threads 1 and 2 (none of thread 0),
realising the concurrent scenario of `CheckGetNumActivatedQueues`. -/
def sampleInterleaving : List (ThreadId × QMOp) :=
  [(1, QMOp.pushOp DeviceClass.cpu 0), (2, QMOp.pushOp DeviceClass.gpu 0),
   (1, QMOp.pushOp DeviceClass.gpu 0)]

/-! ### The claims -/

/-- Claim C1: for every thread T, `activatedCount` observed on T right
after T's own k pushes (of valid devices) and j pops, j ≤ k, equals
k − j, regardless of arbitrary interleaved activity by other threads:
it is the calling thread's own stack depth, not a process-wide total. -/
theorem activatedCount_thread_local (s : QMState) (t : ThreadId)
    (events : List (ThreadId × QMOp)) (ps qs : List QMOp)
    (hempty : s.stackOf t = [])
    (hproj : projT t events = ps ++ qs)
    (hps : ∀ op ∈ ps, ∃ c i, op = QMOp.pushOp c i ∧ i < s.catalog.numDevices c)
    (hqs : ∀ op ∈ qs, op = QMOp.popOp)
    (_hjk : qs.length ≤ ps.length) :
    activatedCount (run s events) t = ps.length - qs.length := by
  unfold activatedCount
  rw [stackOf_run_length, hproj, hempty, stackLenRun_append,
    stackLenRun_pushes _ _ _ hps, stackLenRun_pops _ _ _ hqs]
  simp

/-- Witness for C1: on the sample state, thread 0 performs two valid
pushes then one pop, interleaved with a push by thread 1; thread 0
observes depth 2 − 1 = 1. -/
theorem activatedCount_thread_local_witness :
    activatedCount (run sampleState
      [(0, QMOp.pushOp DeviceClass.cpu 0), (1, QMOp.pushOp DeviceClass.gpu 0),
       (0, QMOp.pushOp DeviceClass.gpu 0), (1, QMOp.popOp), (0, QMOp.popOp)]) 0 = 1 :=
  activatedCount_thread_local sampleState 0
    [(0, QMOp.pushOp DeviceClass.cpu 0), (1, QMOp.pushOp DeviceClass.gpu 0),
     (0, QMOp.pushOp DeviceClass.gpu 0), (1, QMOp.popOp), (0, QMOp.popOp)]
    [QMOp.pushOp DeviceClass.cpu 0, QMOp.pushOp DeviceClass.gpu 0] [QMOp.popOp]
    rfl (by decide)
    (by
      intro op hop
      simp only [List.mem_cons, List.not_mem_nil, or_false] at hop
      rcases hop with rfl | rfl
      · exact ⟨DeviceClass.cpu, 0, rfl, by decide⟩
      · exact ⟨DeviceClass.gpu, 0, rfl, by decide⟩)
    (by decide) (by decide)

/-- Claim C3: `pop` on a thread whose stack is empty (depth 0) fails with
the EmptyStack error; it is never a silent no-op. -/
theorem pop_empty_fails (s : QMState) (t : ThreadId)
    (h : activatedCount s t = 0) :
    pop s t = .error .emptyStack := by
  unfold activatedCount at h
  exact pop_empty (List.length_eq_zero.mp h)

/-- Witness for C3: on the sample state, thread 0 has depth 0 and `pop`
fails with EmptyStack. -/
theorem pop_empty_fails_witness :
    activatedCount sampleState 0 = 0 ∧
      pop sampleState 0 = .error .emptyStack :=
  ⟨rfl, pop_empty_fails sampleState 0 rfl⟩

/-- Claim C4: `getQueue c i` fails with OutOfRange whenever
i ≥ countDevicesOfClass c (no clamping or wrapping), and whenever
countDevicesOfClass c > 0, `getQueue c 0` never fails and yields a
queue. -/
theorem getQueue_range_check (s : QMState) (c : DeviceClass) (i : Nat) :
    (countDevicesOfClass s c ≤ i → getQueue s c i = .error .outOfRange) ∧
    (0 < countDevicesOfClass s c → ∃ q s', getQueue s c 0 = .ok (q, s')) := by
  constructor
  · intro hi
    exact getQueue_invalid (by unfold countDevicesOfClass at hi; omega)
  · intro hc
    exact getQueue_valid_ok hc

/-- Witness for C4: the sample catalog has one CPU device; index 5 is out
of range and fails, index 0 succeeds. -/
theorem getQueue_range_check_witness :
    countDevicesOfClass sampleState DeviceClass.cpu ≤ 5 ∧
    0 < countDevicesOfClass sampleState DeviceClass.cpu ∧
    getQueue sampleState DeviceClass.cpu 5 = .error .outOfRange ∧
    (∃ q s', getQueue sampleState DeviceClass.cpu 0 = .ok (q, s')) :=
  ⟨by decide, by decide,
    (getQueue_range_check sampleState DeviceClass.cpu 5).1 (by decide),
    (getQueue_range_check sampleState DeviceClass.cpu 5).2 (by decide)⟩

/-- Claim C5: on a thread that has never pushed (empty stack), `current`
does not fail: it lazily materializes and returns the manager-wide
default queue, leaves the stack untouched, and the default does not count
toward `activatedCount`, which stays 0. -/
theorem current_default_on_empty (s : QMState) (t : ThreadId)
    (hempty : s.stackOf t = []) (hq : s.defaultQ = none) :
    (current s t).1 = defaultQueue ∧
    (current s t).2.defaultQ = some defaultQueue ∧
    (current s t).2.stackOf = s.stackOf ∧
    activatedCount (current s t).2 t = 0 := by
  refine ⟨?_, ?_, (current_state_inv s t).2.1, ?_⟩
  · simp only [current, hempty, hq]
  · simp only [current, hempty, hq]
  · unfold activatedCount
    rw [(current_state_inv s t).2.1, hempty]
    rfl

/-- Witness for C5: calling `current` for thread 0 of the sample state
yields the default CPU queue, materializes it, and keeps depth 0. -/
theorem current_default_on_empty_witness :
    (current sampleState 0).1 = defaultQueue ∧
    (current sampleState 0).2.defaultQ = some defaultQueue ∧
    (current sampleState 0).2.stackOf = sampleState.stackOf ∧
    activatedCount (current sampleState 0).2 0 = 0 :=
  current_default_on_empty sampleState 0 rfl rfl

/-- Claim C7: `countPlatforms` always returns a non-negative integer, and
its value is stable across any run of manager operations within one
process (the catalog is never mutated). -/
theorem countPlatforms_nonneg_stable (s : QMState)
    (events : List (ThreadId × QMOp)) :
    0 ≤ countPlatforms s ∧ countPlatforms (run s events) = countPlatforms s := by
  constructor
  · exact Int.natCast_nonneg _
  · unfold countPlatforms
    rw [run_catalog]

/-- Claim C2: the concrete three-thread scenario of the
`CheckGetNumActivatedQueues` test.  Main thread 0 pushes CPU(0) once;
thread 1 pushes CPU(0) then GPU(0) and reads its count; thread 2 pushes
GPU(0) and reads its count; the threads run concurrently (any
interleaving `ev`, constrained only by each thread's own subtrace).
Thread 1 observes 2, thread 2 observes 1, thread 0 observes 1 before
joining and 0 after one post-join pop: no thread's count is contaminated
by another thread's pushes or pops. -/
theorem concurrent_scenario_counts (s0 : QMState)
    (hcpu : 0 < s0.catalog.numDevices DeviceClass.cpu)
    (hgpu : 0 < s0.catalog.numDevices DeviceClass.gpu)
    (h0 : s0.stackOf 0 = []) (h1 : s0.stackOf 1 = []) (h2 : s0.stackOf 2 = []) :
    (∀ ev, projT 1 ev = [QMOp.pushOp DeviceClass.cpu 0, QMOp.pushOp DeviceClass.gpu 0] →
      activatedCount (run (step s0 0 (QMOp.pushOp DeviceClass.cpu 0)) ev) 1 = 2) ∧
    (∀ ev, projT 2 ev = [QMOp.pushOp DeviceClass.gpu 0] →
      activatedCount (run (step s0 0 (QMOp.pushOp DeviceClass.cpu 0)) ev) 2 = 1) ∧
    (∀ ev, projT 0 ev = [] →
      activatedCount (run (step s0 0 (QMOp.pushOp DeviceClass.cpu 0)) ev) 0 = 1 ∧
      activatedCount
        (step (run (step s0 0 (QMOp.pushOp DeviceClass.cpu 0)) ev) 0 QMOp.popOp) 0 = 0) := by
  have hcat : (step s0 0 (QMOp.pushOp DeviceClass.cpu 0)).catalog = s0.catalog :=
    step_catalog s0 0 _
  refine ⟨?_, ?_, ?_⟩
  · intro ev hev
    unfold activatedCount
    rw [stackOf_run_length, hev, step_stackOf_ne (by decide) s0, h1, hcat]
    simp [stackLenRun, stackLenStep, hcpu, hgpu]
  · intro ev hev
    unfold activatedCount
    rw [stackOf_run_length, hev, step_stackOf_ne (by decide) s0, h2, hcat]
    simp [stackLenRun, stackLenStep, hgpu]
  · intro ev hev
    have hmain :
        activatedCount (run (step s0 0 (QMOp.pushOp DeviceClass.cpu 0)) ev) 0 = 1 := by
      unfold activatedCount
      rw [stackOf_run_length, hev, stackLenRun, step_stackOf_len, h0]
      simp [stackLenStep, hcpu]
    refine ⟨hmain, ?_⟩
    unfold activatedCount at hmain ⊢
    rw [step_stackOf_len]
    simp [stackLenStep, hmain]

/-- Witness for C2: the sample state and the sample interleaving where
thread 1 pushes CPU(0), thread 2 pushes GPU(0), thread 1 pushes GPU(0)
(no event of thread 0). -/
theorem concurrent_scenario_counts_witness :
    activatedCount
      (run (step sampleState 0 (QMOp.pushOp DeviceClass.cpu 0)) sampleInterleaving) 1 = 2 ∧
    activatedCount
      (run (step sampleState 0 (QMOp.pushOp DeviceClass.cpu 0)) sampleInterleaving) 2 = 1 ∧
    activatedCount
      (run (step sampleState 0 (QMOp.pushOp DeviceClass.cpu 0)) sampleInterleaving) 0 = 1 ∧
    activatedCount
      (step (run (step sampleState 0 (QMOp.pushOp DeviceClass.cpu 0)) sampleInterleaving)
        0 QMOp.popOp) 0 = 0 :=
  ⟨(concurrent_scenario_counts sampleState (by decide) (by decide) rfl rfl rfl).1
      sampleInterleaving (by decide),
   (concurrent_scenario_counts sampleState (by decide) (by decide) rfl rfl rfl).2.1
      sampleInterleaving (by decide),
   ((concurrent_scenario_counts sampleState (by decide) (by decide) rfl rfl rfl).2.2
      sampleInterleaving (by decide)).1,
   ((concurrent_scenario_counts sampleState (by decide) (by decide) rfl rfl rfl).2.2
      sampleInterleaving (by decide)).2⟩

/-- The first component of `current` depends only on the calling thread's
stack and on the default-queue cell. -/
theorem current_fst_congr {s1 s2 : QMState} {t : ThreadId}
    (hst : s1.stackOf t = s2.stackOf t) (hd : s1.defaultQ = s2.defaultQ) :
    (current s1 t).1 = (current s2 t).1 := by
  unfold current
  rw [hst, hd]
  rcases hs : s2.stackOf t with - | ⟨q, rest⟩
  · rcases hq : s2.defaultQ with - | q0 <;> rfl
  · rfl

/-- Claim C6: pushing any valid queue then immediately popping restores
`activatedCount` to its pre-push value and restores the queue returned by
`current` to its pre-push value (the default-queue policy result when the
stack was empty before). -/
theorem push_pop_roundtrip (s : QMState) (t : ThreadId) (c : DeviceClass)
    (i : Nat) (q : Queue) (s' : QMState)
    (hpush : push s t c i = .ok (q, s')) :
    ∃ s'', pop s' t = .ok s'' ∧
      activatedCount s'' t = activatedCount s t ∧
      (current s'' t).1 = (current s t).1 := by
  obtain ⟨hc, hst, hne, hd⟩ := push_ok_inv hpush
  refine ⟨_, pop_cons hst, ?_, ?_⟩
  · unfold activatedCount
    simp
  · exact current_fst_congr (by simp) hd

/-- Witness for C6: a round trip of push CPU(0); pop on thread 0 of the
sample state restores the depth and the current queue. -/
theorem push_pop_roundtrip_witness :
    ∃ q s', push sampleState 0 DeviceClass.cpu 0 = .ok (q, s') ∧
      ∃ s'', pop s' 0 = .ok s'' ∧
        activatedCount s'' 0 = activatedCount sampleState 0 ∧
        (current s'' 0).1 = (current sampleState 0).1 :=
  ⟨_, _, rfl, push_pop_roundtrip sampleState 0 DeviceClass.cpu 0 _ _ rfl⟩

/-- Claim C8: `dumpPlatformInfo` and `dumpDeviceInfo` never fail for any
catalog state or device; with zero platforms the former reports
"no devices" rather than erroring. -/
theorem dump_never_fails (cat : Catalog) (d : Device) :
    (∃ str, dumpPlatformInfo cat = .ok str) ∧
    (∃ str, dumpDeviceInfo d = .ok str) ∧
    (cat.numPlatforms = 0 → dumpPlatformInfo cat = .ok "no devices") := by
  refine ⟨?_, ⟨_, rfl⟩, ?_⟩
  · unfold dumpPlatformInfo
    by_cases h : cat.numPlatforms = 0
    · rw [if_pos h]
      exact ⟨_, rfl⟩
    · rw [if_neg h]
      exact ⟨_, rfl⟩
  · intro h
    unfold dumpPlatformInfo
    rw [if_pos h]

/-- Witness for C8: the empty catalog (zero platforms, zero devices) and
a sample device. -/
theorem dump_never_fails_witness :
    (∃ str, dumpPlatformInfo ⟨0, fun _ => 0⟩ = .ok str) ∧
    (∃ str, dumpDeviceInfo ⟨DeviceClass.cpu, 0⟩ = .ok str) ∧
    dumpPlatformInfo ⟨0, fun _ => 0⟩ = .ok "no devices" :=
  ⟨(dump_never_fails ⟨0, fun _ => 0⟩ ⟨DeviceClass.cpu, 0⟩).1,
   (dump_never_fails ⟨0, fun _ => 0⟩ ⟨DeviceClass.cpu, 0⟩).2.1,
   (dump_never_fails ⟨0, fun _ => 0⟩ ⟨DeviceClass.cpu, 0⟩).2.2 rfl⟩

/-- The registry only caches the canonical queue of each key: the
invariant every reachable registry satisfies (the empty registry
trivially so). -/
def registryWF (reg : Registry) : Prop :=
  ∀ k q, lookupRegistry reg k = some q → q = ⟨k.1, k.2⟩

/-- Cache hit: a successful lookup makes `getQueue` return the cached
queue with the state unchanged. -/
theorem getQueue_cached {s : QMState} {c : DeviceClass} {i : Nat} {q : Queue}
    (hv : i < s.catalog.numDevices c)
    (hl : lookupRegistry s.registry (c, i) = some q) :
    getQueue s c i = .ok (q, s) := by
  unfold getQueue
  rw [if_pos hv, hl]

/-- Claim C9: the first successful `getQueue` for a key constructs and
caches the queue; a subsequent `getQueue` for the same key returns the
cached instance with no further state change; and the returned queue is
determined by the key (any two requests for the same key return
value-equal queues). -/
theorem getQueue_caches (s : QMState) (c : DeviceClass) (i : Nat) (q : Queue)
    (s' : QMState) (hwf : registryWF s.registry)
    (h : getQueue s c i = .ok (q, s')) :
    q = ⟨c, i⟩ ∧ lookupRegistry s'.registry (c, i) = some q ∧
      getQueue s' c i = .ok (q, s') := by
  by_cases hv : i < s.catalog.numDevices c
  · unfold getQueue at h
    rw [if_pos hv] at h
    rcases hl : lookupRegistry s.registry (c, i) with - | q0
    · rw [hl] at h
      simp only [Except.ok.injEq, Prod.mk.injEq] at h
      obtain ⟨rfl, rfl⟩ := h
      have hl' : lookupRegistry (((c, i), (⟨c, i⟩ : Queue)) :: s.registry) (c, i) =
          some ⟨c, i⟩ := by
        unfold lookupRegistry
        rw [if_pos rfl]
      exact ⟨rfl, hl', getQueue_cached hv hl'⟩
    · rw [hl] at h
      simp only [Except.ok.injEq, Prod.mk.injEq] at h
      obtain ⟨rfl, rfl⟩ := h
      exact ⟨hwf (c, i) _ hl, hl, getQueue_cached hv hl⟩
  · rw [getQueue_invalid hv] at h
    exact absurd h (by simp)

/-- Witness for C9: the first `getQueue` for CPU(0) on the sample state
caches the CPU(0) queue and a second request returns it unchanged. -/
theorem getQueue_caches_witness :
    ∃ q s', getQueue sampleState DeviceClass.cpu 0 = .ok (q, s') ∧
      q = ⟨DeviceClass.cpu, 0⟩ ∧
      lookupRegistry s'.registry (DeviceClass.cpu, 0) = some q ∧
      getQueue s' DeviceClass.cpu 0 = .ok (q, s') :=
  ⟨_, _, rfl, getQueue_caches sampleState DeviceClass.cpu 0 _ _
    (by intro k q hkq; simp [lookupRegistry] at hkq) rfl⟩

/-! ### The SYCL context interface (`dppl_sycl_context_interface.h`) -/

/-- A SYCL context: the observable modelled here is whether it is a host
context. -/
structure SyclContext where
  isHost : Bool
deriving DecidableEq

/-- Opaque references to contexts owned by the underlying runtime. -/
abbrev ContextRef := Nat

/-- The runtime's table of live contexts, keyed by reference. -/
abbrev ContextHeap := List (ContextRef × SyclContext)

/-- Lookup of a context reference in the table of live contexts. -/
def lookupCtx (h : ContextHeap) (r : ContextRef) : Option SyclContext :=
  match h with
  | [] => none
  | (r0, c) :: rest => if r0 = r then some c else lookupCtx rest r

/-- Modelled from the spec: DPPLIsHostContext (its implementation is
missing from the visible sources; only its declaration in
`dppl_sycl_context_interface.h` is present).  Per the declaration it
takes the context as a `__dppl_keep` non-owning borrow and returns
whether it is a host context, leaving the table of live contexts
unchanged. -/
def DPPLIsHostContext (h : ContextHeap) (r : ContextRef) :
    Option Bool × ContextHeap :=
  ((lookupCtx h r).map SyclContext.isHost, h)

/-- Modelled from the spec: DPPLDeleteSyclContext (its implementation is
missing from the visible sources; only its declaration in
`dppl_sycl_context_interface.h` is present).  Per the declaration it is
`__dppl_take`: it consumes the reference, deleting the context from the
table of live contexts. -/
def DPPLDeleteSyclContext (h : ContextHeap) (r : ContextRef) : ContextHeap :=
  match h with
  | [] => []
  | (r0, c) :: rest =>
    if r0 = r then rest else (r0, c) :: DPPLDeleteSyclContext rest r

/-- Claim C10: DPPLIsHostContext borrows its argument: for every valid
context reference it leaves the table of live contexts unchanged, the
reference stays valid afterwards (in particular it may still be passed to
DPPLDeleteSyclContext, with the same effect as before the call), and
repeated calls return the same boolean. -/
theorem isHostContext_borrows (h : ContextHeap) (r : ContextRef)
    (hvalid : (lookupCtx h r).isSome) :
    (DPPLIsHostContext h r).2 = h ∧
    (lookupCtx (DPPLIsHostContext h r).2 r).isSome ∧
    (DPPLIsHostContext (DPPLIsHostContext h r).2 r).1 = (DPPLIsHostContext h r).1 ∧
    DPPLDeleteSyclContext (DPPLIsHostContext h r).2 r = DPPLDeleteSyclContext h r :=
  ⟨rfl, hvalid, rfl, rfl⟩

/-- Witness for C10: a table with one live host context, referenced by 0. -/
theorem isHostContext_borrows_witness :
    (lookupCtx [(0, ⟨true⟩)] 0).isSome ∧
    (DPPLIsHostContext [(0, ⟨true⟩)] 0).2 = [(0, ⟨true⟩)] ∧
    (lookupCtx (DPPLIsHostContext [(0, ⟨true⟩)] 0).2 0).isSome ∧
    (DPPLIsHostContext (DPPLIsHostContext [(0, ⟨true⟩)] 0).2 0).1 =
      (DPPLIsHostContext [(0, ⟨true⟩)] 0).1 ∧
    DPPLDeleteSyclContext (DPPLIsHostContext [(0, ⟨true⟩)] 0).2 0 =
      DPPLDeleteSyclContext [(0, ⟨true⟩)] 0 :=
  ⟨by decide, isHostContext_borrows [(0, ⟨true⟩)] 0 (by decide)⟩

end Dpctl
